import Mathlib

/-!
Formal model of `grr/lib/aff4_objects/multi_type_collection.py`
(class `MultiTypeCollection`).

Python strings are embedded as `List Char` (Python slicing and `len` are
character-based, so this is the faithful representation); AFF4 URNs are
embedded as lists of path components (`RDFURN.Add` appends one component).
The two external collaborators — the ordered-sequence primitive
(`sequential_collection.GrrMessageCollection` / `SequentialCollection`) and
the attribute store (`data_store.DB`) — are not part of the sources and are
modelled from the spec at their interface boundary; each such definition is
marked `Modelled from the spec:` in its doc comment.

State is passed explicitly: `Db` is the external store, and an optional
second `Db` plays the role of a `MutationPool` of staged writes.
-/

/-- A Python string: a sequence of characters. -/
abbrev PyStr := List Char

/-- An AFF4 URN, modelled as its list of path components. -/
abbrev URN := List PyStr

/-- `RDFURN.Add`: extend a URN by one path component. -/
def URN.add (u : URN) (c : PyStr) : URN := u ++ [c]

/-- A payload value carrying its runtime type name (the name `args_rdf_name`
reports for it once it is wrapped). -/
structure PlainValue where
  typeName : PyStr
  data : Nat
deriving DecidableEq

/-- An rdf value as seen by `MultiTypeCollection`: either a `GrrMessage`
envelope (whose payload may be absent) or a plain, unwrapped payload. -/
inductive RDFValue where
  | grrMessage (payload : Option PlainValue)
  | plain (p : PlainValue)
deriving DecidableEq

/-- `GrrMessage.args_rdf_name`: the type name of the envelope's inner
payload, or the empty (falsy) string when the envelope has no payload.  It
is only consulted on `grrMessage` values; on unwrapped values we return the
falsy empty string as a dummy. -/
def RDFValue.args_rdf_name : RDFValue → PyStr
  | .grrMessage (some p) => p.typeName
  | .grrMessage none => []
  | .plain _ => []

/-- `rdf_flows.GrrMessage.__name__`. -/
def GrrMessageName : PyStr := "GrrMessage".toList

/-- Lines 66-67: `if not isinstance(rdf_value, GrrMessage): rdf_value =
GrrMessage(payload=rdf_value)`. -/
def wrapIfNeeded : RDFValue → RDFValue
  | .grrMessage p => .grrMessage p
  | .plain p => .grrMessage (some p)

/-- Line 69: `value_type = rdf_value.args_rdf_name or GrrMessage.__name__`
(Python `or` takes the right operand when the left is falsy, i.e. empty). -/
def argsOrDefault (m : RDFValue) : PyStr :=
  if m.args_rdf_name = [] then GrrMessageName else m.args_rdf_name

/-- The type name `Add` routes a raw payload under: wrap it, then apply the
`or`-fallback of line 69. -/
def deriveTypeName (v : RDFValue) : PyStr :=
  argsOrDefault (wrapIfNeeded v)

/-- The external store plus the record rows of the sequence primitive.
`attrs` holds one cell per (row, attribute) pair as (row, attribute, value,
timestamp); `seqEntries` holds the entries of every per-type sequence as
(sequence id, timestamp, suffix, value). -/
structure Db where
  attrs : List (URN × PyStr × Nat × Nat)
  seqEntries : List (URN × Nat × Nat × RDFValue)
deriving DecidableEq

/-- Modelled from the spec: the attribute store's point write
`SetAttribute(rowId, attributeName, value, timestamp)` (`data_store.DB.Set`
/ `MutationPool.Set`).  It replaces any previous cell of the same (row,
attribute) pair — the marker write is a repeatable, idempotent,
last-writer-wins point write. -/
def Db.set (db : Db) (row : URN) (attr : PyStr) (v ts : Nat) : Db :=
  { db with
    attrs := (row, attr, v, ts) ::
      db.attrs.filter (fun c => !(c.1 == row && c.2.1 == attr)) }

/-- Modelled from the spec: `data_store.DB.ResolveRow(rowId)`, the sequence
of (attribute, value, timestamp) triples stored on one row. -/
def Db.resolveRow (db : Db) (row : URN) : List (PyStr × Nat × Nat) :=
  (db.attrs.filter (fun c => c.1 == row)).map (fun c => c.2)

/-- Modelled from the spec: each appended entry of the ordered-sequence
primitive occupies its own store row, derived from the sequence id and the
entry's ordering key, and that row carries the primitive's marking
attribute (`SequentialCollection.ATTRIBUTE`). -/
def recordRow (seqId : URN) (ts sfx : Nat) : URN :=
  URN.add seqId ((toString ts).toList ++ '.' :: (toString sfx).toList)

/-- Modelled from the spec: the ordered-sequence primitive's append
(`GrrMessageCollection.StaticAdd`).  Appends the entry keyed by
(timestamp, suffix) to the sub-sequence — staged into the mutation pool
when one is supplied, directly into the store otherwise — and returns the
ordering key. -/
def seqStaticAdd (seqId : URN) (v : RDFValue) (ts sfx : Nat)
    (pool : Option Db) (db : Db) : Db × Option Db × (Nat × Nat) :=
  match pool with
  | some p =>
    (db, some { p with seqEntries := (seqId, ts, sfx, v) :: p.seqEntries }, (ts, sfx))
  | none =>
    ({ db with seqEntries := (seqId, ts, sfx, v) :: db.seqEntries }, none, (ts, sfx))

/-- Ascending order on ordering keys (timestamp, suffix): lexicographic. -/
def keyLe (a b : Nat × Nat) : Prop :=
  a.1 < b.1 ∨ (a.1 = b.1 ∧ a.2 ≤ b.2)

instance : DecidableRel keyLe := fun a b => by
  unfold keyLe; exact inferInstance

/-- Key order lifted to scan results ((key, value) pairs). -/
def entryLe (a b : (Nat × Nat) × RDFValue) : Prop := keyLe a.1 b.1

instance : DecidableRel entryLe := fun a b => by
  unfold entryLe; exact inferInstance

instance : IsTotal ((Nat × Nat) × RDFValue) entryLe :=
  ⟨by intro a b; unfold entryLe keyLe; omega⟩

instance : IsTrans ((Nat × Nat) × RDFValue) entryLe :=
  ⟨by intro a b c; unfold entryLe keyLe; omega⟩

/-- Modelled from the spec: the ordered-sequence primitive's
`Scan(sequenceId, afterKey?, limit?)`: the sub-sequence's entries in
ascending ordering-key order, optionally only those strictly after
`afterK`, optionally capped at `maxR` entries.  (`include_suffix` in the
source only projects the key of each yielded pair; the model always yields
the full (timestamp, suffix) key.) -/
def seqScan (db : Db) (seqId : URN) (afterK : Option (Nat × Nat))
    (maxR : Option Nat) : List ((Nat × Nat) × RDFValue) :=
  let elems := (db.seqEntries.filter (fun e => e.1 == seqId)).map
    (fun e => ((e.2.1, e.2.2.1), e.2.2.2))
  let sorted := elems.insertionSort entryLe
  let cut := match afterK with
    | none => sorted
    | some k => sorted.filter (fun e => !(decide (keyLe e.1 k)))
  match maxR with
  | none => cut
  | some m => cut.take m

/-- Modelled from the spec: the ordered-sequence primitive's
`Length(sequenceId)` (`len(sub_collection)`): the number of entries of the
sub-sequence, never cached. -/
def seqLength (db : Db) (seqId : URN) : Nat :=
  (db.seqEntries.filter (fun e => e.1 == seqId)).length

/-- Modelled from the spec: the rows of `db` carrying the sequence
primitive's marking attribute. -/
def Db.recordRows (db : Db) : List URN :=
  db.seqEntries.map (fun e => recordRow e.1 e.2.1 e.2.2.1)

/-- Modelled from the spec: `data_store.DB.ScanAttribute(rowIdRange,
attributeName)`: every row in the key range below `root` carrying the
sequence primitive's marking attribute. -/
def Db.scanAttribute (db : Db) (root : URN) : List URN :=
  db.recordRows.filter (fun r => root.isPrefixOf r)

/-- What one call to `StaticAdd` produces: the store, the mutation pool
(when one was passed in) and the Python return value of the call. -/
structure AddResult where
  db : Db
  pool : Option Db
  ret : Option (Nat × Nat)
deriving DecidableEq

/-- `MultiTypeCollection.VALUE_TYPE_PREFIX = "aff4:value_type_"`. -/
def valueTypeTag : PyStr := "aff4:value_type_".toList

namespace MultiTypeCollection

/-- `MultiTypeCollection.StaticAdd` (lines 18-97).  Rejects `None`, wraps
the payload, derives `value_type`, appends to the sub-sequence at
`collection_urn.Add(value_type)` via the sequence primitive, then writes
the type marker `VALUE_TYPE_PREFIX + value_type` with value 1 at timestamp
0 — into the mutation pool when one was supplied (the primitive append
stages there too, so matching on its returned pool is the source's
`if mutation_pool:`), directly into the store otherwise.  The source has no
`return` statement on the success path, so the call returns Python `None`:
`ret := none`, and the ordering key produced by the primitive is dropped. -/
def StaticAdd (collection_urn : URN) (rdf_value : Option RDFValue)
    (timestamp sfx : Nat) (mutation_pool : Option Db) (db : Db) :
    Except PyStr AddResult :=
  match rdf_value with
  | none => .error "Can't add None to MultiTypeCollection".toList
  | some v0 =>
    let v := wrapIfNeeded v0
    let value_type := argsOrDefault v
    let subpath := URN.add collection_urn value_type
    let r := seqStaticAdd subpath v timestamp sfx mutation_pool db
    match r.2.1 with
    | some p =>
      .ok ⟨r.1, some (p.set collection_urn (valueTypeTag ++ value_type) 1 0), none⟩
    | none =>
      .ok ⟨(r.1).set collection_urn (valueTypeTag ++ value_type) 1 0, none, none⟩

/-- `MultiTypeCollection.ListStoredTypes` (lines 99-104): the attributes of
the collection's own row that start with `VALUE_TYPE_PREFIX`, with that
leading piece stripped (`attribute[len(VALUE_TYPE_PREFIX):]`). -/
def ListStoredTypes (db : Db) (urn : URN) : List PyStr :=
  (db.resolveRow urn).filterMap (fun c =>
    if valueTypeTag.isPrefixOf c.1 then some (c.1.drop valueTypeTag.length)
    else none)

/-- `MultiTypeCollection.ScanByType` (lines 106-141): scan the
sub-sequence at `urn.Add(type_name)`. -/
def ScanByType (db : Db) (urn : URN) (type_name : PyStr)
    (afterK : Option (Nat × Nat)) (maxR : Option Nat) :
    List ((Nat × Nat) × RDFValue) :=
  seqScan db (URN.add urn type_name) afterK maxR

/-- `MultiTypeCollection.LengthByType` (lines 143-148):
`len` of the sub-sequence at `urn.Add(type_name)`. -/
def LengthByType (db : Db) (urn : URN) (type_name : PyStr) : Nat :=
  seqLength db (URN.add urn type_name)

/-- `MultiTypeCollection.Add` (lines 151-186): delegates to `StaticAdd` on
the collection's own urn and token (`mutation_pool` rides through
`**kwargs`), and returns whatever `StaticAdd` returns. -/
def Add (db : Db) (urn : URN) (rdf_value : Option RDFValue)
    (timestamp sfx : Nat) (mutation_pool : Option Db) :
    Except PyStr AddResult :=
  StaticAdd urn rdf_value timestamp sfx mutation_pool db

/-- `MultiTypeCollection.__iter__` (lines 188-198): for each stored type in
`ListStoredTypes()` order, fully drain that type's sub-sequence before
moving to the next. -/
def iterAll (db : Db) (urn : URN) : List ((Nat × Nat) × RDFValue) :=
  (ListStoredTypes db urn).flatMap
    (fun stored_type => seqScan db (URN.add urn stored_type) none none)

/-- `MultiTypeCollection.__len__` (lines 200-212): `l = 0`, then
`l += len(sub_collection)` over the sub-sequences of the stored types. -/
def pyLen (db : Db) (urn : URN) : Nat :=
  (ListStoredTypes db urn).foldl
    (fun l stored_type => l + seqLength db (URN.add urn stored_type)) 0

/-- The loop of `OnDelete`: `deletion_pool.MarkForDeletion(urn)` for each
discovered row in turn.  The dereference of `deletion_pool` is
unconditional, so with `pool = none` the first row raises. -/
def markAll (pool : Option (List URN)) :
    List URN → Except PyStr (Option (List URN))
  | [] => .ok pool
  | row :: rest =>
    match pool with
    | some l => markAll (some (l ++ [row])) rest
    | none =>
      .error "AttributeError: NoneType object has no attribute MarkForDeletion".toList

/-- `MultiTypeCollection.OnDelete` (lines 214-221): the base-class hook
does nothing of its own (lifecycle is out of scope), then for every row
found by `ScanAttribute(self.urn, SequentialCollection.ATTRIBUTE)` the
code calls `deletion_pool.MarkForDeletion(urn)` unconditionally — when
`deletion_pool` is `None` (its Python default, taken when the caller
supplies no pool), the first discovered row hits an `AttributeError` on
the `None` dereference. -/
def OnDelete (db : Db) (urn : URN) (deletion_pool : Option (List URN)) :
    Except PyStr (Option (List URN)) :=
  markAll deletion_pool (db.scanAttribute urn)

end MultiTypeCollection

/-! Concrete inputs used by witnesses and counterexamples. -/

/-- An empty store. -/
def exDb : Db := ⟨[], []⟩

/-- A sample collection urn. -/
def exUrn : URN := ["aff4:".toList, "hunts".toList, "H:1".toList]

/-- A sample unwrapped payload of runtime type `A`. -/
def exPayloadA : RDFValue := .plain ⟨"A".toList, 0⟩

/-! Helper lemmas shared by several claims. -/

/-- Folding `+ f t` over a list accumulates the sum of `f` over it. -/
theorem foldl_add_eq_sum {α : Type} (f : α → Nat) :
    ∀ (l : List α) (n : Nat), l.foldl (fun a t => a + f t) n = n + (l.map f).sum
  | [], n => by simp
  | t :: l, n => by
    simp [foldl_add_eq_sum f l, Nat.add_assoc]

/-- The length of a `flatMap` is the sum of the lengths of the pieces. -/
theorem length_flatMap_eq_sum {α β : Type} (f : α → List β) :
    ∀ l : List α, (l.flatMap f).length = (l.map (fun t => (f t).length)).sum
  | [] => by simp
  | t :: l => by simp [length_flatMap_eq_sum f l]

/-- A full scan of a sub-sequence yields exactly `seqLength` entries. -/
theorem seqScan_full_length (db : Db) (seqId : URN) :
    (seqScan db seqId none none).length = seqLength db seqId := by
  simp [seqScan, seqLength]

/-- Stripping `VALUE_TYPE_PREFIX` is the inverse of prepending it: the
marker attribute written for `t` starts with the marker namespace and
strips back to exactly `t`. -/
theorem stripTag_roundtrip (t : PyStr) :
    valueTypeTag.isPrefixOf (valueTypeTag ++ t) = true ∧
    (valueTypeTag ++ t).drop valueTypeTag.length = t := by
  constructor
  · simp [List.isPrefixOf_iff_prefix]
  · exact List.drop_left _ _

/-- The state transformer of one successful non-batched `Add`. -/
def applyAdd (db : Db) (urn : URN) (v : RDFValue) (ts sfx : Nat) : Db :=
  Db.set
    { db with seqEntries :=
        (URN.add urn (deriveTypeName v), ts, sfx, wrapIfNeeded v) :: db.seqEntries }
    urn (valueTypeTag ++ deriveTypeName v) 1 0

/-- A non-batched `Add` of a non-null payload succeeds, returns `None`,
and transforms the store by `applyAdd`. -/
theorem add_ok (db : Db) (urn : URN) (v : RDFValue) (ts sfx : Nat) :
    MultiTypeCollection.Add db urn (some v) ts sfx none =
      .ok ⟨applyAdd db urn v ts sfx, none, none⟩ := rfl

/-- Writing the marker for `t` makes `t` appear in `ListStoredTypes`. -/
theorem listStoredTypes_set_mem (db : Db) (urn : URN) (t : PyStr) :
    t ∈ MultiTypeCollection.ListStoredTypes
      (db.set urn (valueTypeTag ++ t) 1 0) urn := by
  unfold MultiTypeCollection.ListStoredTypes Db.resolveRow Db.set
  simp [List.filterMap_cons, (stripTag_roundtrip t).1, (stripTag_roundtrip t).2]

/-- Writing a marker never removes a type from `ListStoredTypes`. -/
theorem listStoredTypes_set_preserve (db : Db) (urn : URN) (s t : PyStr)
    (h : s ∈ MultiTypeCollection.ListStoredTypes db urn) :
    s ∈ MultiTypeCollection.ListStoredTypes
      (db.set urn (valueTypeTag ++ t) 1 0) urn := by
  simp only [MultiTypeCollection.ListStoredTypes, Db.resolveRow, Db.set,
    List.filterMap_map, List.mem_filterMap, List.mem_filter,
    Function.comp] at h ⊢
  obtain ⟨c, ⟨hcmem, hcrow⟩, hcval⟩ := h
  by_cases hc : c.2.1 = valueTypeTag ++ t
  · refine ⟨(urn, valueTypeTag ++ t, 1, 0), ⟨List.mem_cons_self _ _, by simp⟩, ?_⟩
    rw [hc] at hcval
    exact hcval
  · refine ⟨c, ⟨List.mem_cons_of_mem _ (List.mem_filter.mpr ⟨hcmem, ?_⟩), hcrow⟩,
      hcval⟩
    simp [hc]

/-- Apply a list of non-batched `Add` calls (payload, timestamp, suffix) in
order, threading the store through. -/
def addAll (urn : URN) : Db → List (RDFValue × Nat × Nat) → Db
  | db, [] => db
  | db, a :: rest =>
    match MultiTypeCollection.Add db urn (some a.1) a.2.1 a.2.2 none with
    | .ok res => addAll urn res.db rest
    | .error _ => db

/-- One step of `addAll` is `applyAdd`. -/
theorem addAll_cons (urn : URN) (db : Db) (a : RDFValue × Nat × Nat)
    (rest : List (RDFValue × Nat × Nat)) :
    addAll urn db (a :: rest) =
      addAll urn (applyAdd db urn a.1 a.2.1 a.2.2) rest := rfl

/-- Later `Add` calls never remove a discovered type. -/
theorem listStoredTypes_mono_addAll (urn : URN) (s : PyStr) :
    ∀ (adds : List (RDFValue × Nat × Nat)) (db : Db),
      s ∈ MultiTypeCollection.ListStoredTypes db urn →
      s ∈ MultiTypeCollection.ListStoredTypes (addAll urn db adds) urn
  | [], db, h => h
  | a :: rest, db, h => by
    rw [addAll_cons]
    exact listStoredTypes_mono_addAll urn s rest _
      (listStoredTypes_set_preserve _ urn s _ h)

/-!  ## Claims  -/

/-- C1: the spec (and the source's own docstring) says `Add`/`StaticAdd`
return the ordering key (timestamp, suffix) of the appended entry — e.g.
adding a type-`A` value at t=100, suffix=5 should return (100, 5).  The
source has no `return` statement in `StaticAdd`, so the key produced by
the sequence primitive is dropped and both calls return Python `None`. -/
theorem C1_add_returns_none :
    ∃ res : AddResult,
      MultiTypeCollection.Add exDb exUrn (some exPayloadA) 100 5 none = .ok res ∧
      res.ret = none ∧ res.ret ≠ some (100, 5) ∧
      (seqStaticAdd (URN.add exUrn (deriveTypeName exPayloadA))
        (wrapIfNeeded exPayloadA) 100 5 none exDb).2.2 = (100, 5) := by
  refine ⟨_, rfl, rfl, by decide, rfl⟩

/-- C2: any non-null payload is wrapped into a `GrrMessage` envelope if it
is not one already (stored unchanged otherwise) and routed to the
sub-sequence named by the inner payload's type name, falling back to
`GrrMessage` when no inner payload type is identifiable (`deriveTypeName`);
a subsequent `ScanByType` with that derived type name yields the
envelope-wrapped payload among its results, and the results are in
ascending ordering-key order. -/
theorem C2_routing_correctness (db : Db) (urn : URN) (v : RDFValue)
    (ts sfx : Nat) :
    ∃ res : AddResult,
      MultiTypeCollection.Add db urn (some v) ts sfx none = .ok res ∧
      ((ts, sfx), wrapIfNeeded v) ∈
        MultiTypeCollection.ScanByType res.db urn (deriveTypeName v) none none ∧
      List.Sorted entryLe
        (MultiTypeCollection.ScanByType res.db urn (deriveTypeName v) none none) := by
  refine ⟨_, rfl, ?_, ?_⟩
  · simp only [MultiTypeCollection.ScanByType, seqScan]
    rw [List.mem_insertionSort]
    refine List.mem_map.mpr
      ⟨(URN.add urn (deriveTypeName v), ts, sfx, wrapIfNeeded v),
        List.mem_filter.mpr ⟨?_, by simp⟩, rfl⟩
    simp [MultiTypeCollection.Add, MultiTypeCollection.StaticAdd, seqStaticAdd,
      Db.set, deriveTypeName]
  · simp only [MultiTypeCollection.ScanByType, seqScan]
    exact List.sorted_insertionSort entryLe _

/-- C3: for every collection state, the aggregate count `__len__` equals
the sum of `LengthByType t` over the types returned by `ListStoredTypes`,
and equals the number of entries yielded by iterating all entries
(`__iter__`).  All three are plain functions of the current store state
(no cache field exists in the state), so each call recomputes them. -/
theorem C3_count_consistency (db : Db) (urn : URN) :
    MultiTypeCollection.pyLen db urn =
      ((MultiTypeCollection.ListStoredTypes db urn).map
        (fun t => MultiTypeCollection.LengthByType db urn t)).sum ∧
    MultiTypeCollection.pyLen db urn =
      (MultiTypeCollection.iterAll db urn).length := by
  constructor
  · simp [MultiTypeCollection.pyLen, MultiTypeCollection.LengthByType,
      foldl_add_eq_sum]
  · have h : (List.length ∘ fun t => seqScan db (URN.add urn t) none none)
        = fun t => seqLength db (URN.add urn t) := by
      funext t
      exact seqScan_full_length db (URN.add urn t)
    simp [MultiTypeCollection.pyLen, MultiTypeCollection.iterAll,
      foldl_add_eq_sum, length_flatMap_eq_sum, h]

/-- C4: passing a null payload to `Add`/`StaticAdd` fails synchronously
with the `ValueError` "Can't add None to MultiTypeCollection", before any
store interaction: the error carries no successor state, so no entry is
appended and no type marker is written, whatever the store, urn,
timestamp, suffix or mutation pool. -/
theorem C4_null_rejected (db : Db) (urn : URN) (ts sfx : Nat)
    (pool : Option Db) :
    MultiTypeCollection.StaticAdd urn none ts sfx pool db =
      .error "Can't add None to MultiTypeCollection".toList ∧
    MultiTypeCollection.Add db urn none ts sfx pool =
      .error "Can't add None to MultiTypeCollection".toList :=
  ⟨rfl, rfl⟩

/-- Every element of a list of adds has its derived type discovered after
the whole list is applied. -/
theorem deriveType_mem_addAll (urn : URN) (v : RDFValue) (ts sfx : Nat) :
    ∀ (adds : List (RDFValue × Nat × Nat)) (db : Db),
      (v, ts, sfx) ∈ adds →
      deriveTypeName v ∈
        MultiTypeCollection.ListStoredTypes (addAll urn db adds) urn
  | [], _, h => absurd h (List.not_mem_nil _)
  | a :: rest, db, h => by
    rw [addAll_cons]
    rcases List.mem_cons.mp h with heq | hrest
    · cases heq
      exact listStoredTypes_mono_addAll urn _ rest _
        (listStoredTypes_set_mem _ urn _)
    · exact deriveType_mem_addAll urn v ts sfx rest _ hrest

/-- C5: the prefix-strip in `ListStoredTypes` is the inverse of the
prefix-prepend in `Add`, and after any sequence of non-batched `Add`
calls, the derived type of every payload added — first, last or in the
middle, so for every distinct type and regardless of add order — is a
member of `ListStoredTypes` of the resulting store. -/
theorem C5_discovery_completeness (db : Db) (urn : URN)
    (adds : List (RDFValue × Nat × Nat)) (v : RDFValue) (ts sfx : Nat)
    (hmem : (v, ts, sfx) ∈ adds) :
    deriveTypeName v ∈
      MultiTypeCollection.ListStoredTypes (addAll urn db adds) urn ∧
    ∀ t : PyStr, valueTypeTag.isPrefixOf (valueTypeTag ++ t) = true ∧
      (valueTypeTag ++ t).drop valueTypeTag.length = t :=
  ⟨deriveType_mem_addAll urn v ts sfx adds db hmem, stripTag_roundtrip⟩

/-- Witness for C5: adding a type-A value (among others, and not last)
makes `A` a stored type of the resulting collection; the marker attribute
for `A` strips back to `A`. -/
theorem C5_witness :
    deriveTypeName exPayloadA ∈
      MultiTypeCollection.ListStoredTypes
        (addAll exUrn exDb
          [(exPayloadA, 100, 5), (.plain ⟨"B".toList, 1⟩, 50, 7)]) exUrn ∧
    valueTypeTag.isPrefixOf (valueTypeTag ++ "A".toList) = true ∧
    (valueTypeTag ++ "A".toList).drop valueTypeTag.length = "A".toList :=
  ⟨(C5_discovery_completeness exDb exUrn
      [(exPayloadA, 100, 5), (.plain ⟨"B".toList, 1⟩, 50, 7)]
      exPayloadA 100 5 (by decide)).1,
   (C5_discovery_completeness exDb exUrn
      [(exPayloadA, 100, 5), (.plain ⟨"B".toList, 1⟩, 50, 7)]
      exPayloadA 100 5 (by decide)).2 ("A".toList)⟩

/-- Splitting a `flatMap` at one index of the outer list. -/
theorem flatMap_decomp {α β : Type} (f : α → List β) (l : List α) (i : Nat)
    (h : i < l.length) :
    l.flatMap f =
      (l.take i).flatMap f ++ (f (l.get ⟨i, h⟩) ++ (l.drop (i + 1)).flatMap f) := by
  have hsplit : l = l.take i ++ l.get ⟨i, h⟩ :: l.drop (i + 1) := by
    conv_lhs => rw [← List.take_append_drop i l]
    rw [List.drop_eq_getElem_cons h]
    simp
  conv_lhs => rw [hsplit]
  simp only [List.flatMap_append, List.flatMap_cons, List.get_eq_getElem]

/-- C6: `__iter__` drains each discovered type completely before moving to
the next: for any two positions i < j of `ListStoredTypes()`, the full
iteration decomposes as `pre ++ scan(type i) ++ mid ++ scan(type j) ++
post` — every entry of the earlier type precedes every entry of the later
type and the two scans are never interleaved — and each type's block is
internally in ascending ordering-key order. -/
theorem C6_iteration_groups_by_type (db : Db) (urn : URN) (i j : Nat)
    (hij : i < j)
    (hj : j < (MultiTypeCollection.ListStoredTypes db urn).length) :
    (∃ pre mid post,
      MultiTypeCollection.iterAll db urn =
        pre ++
        (seqScan db (URN.add urn ((MultiTypeCollection.ListStoredTypes db urn).get
          ⟨i, Nat.lt_trans hij hj⟩)) none none ++
        (mid ++
        (seqScan db (URN.add urn ((MultiTypeCollection.ListStoredTypes db urn).get
          ⟨j, hj⟩)) none none ++
        post)))) ∧
    ∀ t : PyStr, List.Sorted entryLe (seqScan db (URN.add urn t) none none) := by
  constructor
  · have hi : i < (MultiTypeCollection.ListStoredTypes db urn).length :=
      Nat.lt_trans hij hj
    have hj' : j - (i + 1) <
        ((MultiTypeCollection.ListStoredTypes db urn).drop (i + 1)).length := by
      simp only [List.length_drop]
      omega
    have hget : ((MultiTypeCollection.ListStoredTypes db urn).drop (i + 1)).get
        ⟨j - (i + 1), hj'⟩ = (MultiTypeCollection.ListStoredTypes db urn).get ⟨j, hj⟩ := by
      show ((MultiTypeCollection.ListStoredTypes db urn).drop (i + 1))[j - (i + 1)] =
        (MultiTypeCollection.ListStoredTypes db urn)[j]
      rw [List.getElem_drop]
      have hidx : i + 1 + (j - (i + 1)) = j := by omega
      simp only [hidx]
    have hd1 := flatMap_decomp (fun t => seqScan db (URN.add urn t) none none)
      (MultiTypeCollection.ListStoredTypes db urn) i hi
    have hd2 := flatMap_decomp (fun t => seqScan db (URN.add urn t) none none)
      ((MultiTypeCollection.ListStoredTypes db urn).drop (i + 1)) (j - (i + 1)) hj'
    rw [hget] at hd2
    refine ⟨((MultiTypeCollection.ListStoredTypes db urn).take i).flatMap
        (fun t => seqScan db (URN.add urn t) none none),
      (((MultiTypeCollection.ListStoredTypes db urn).drop (i + 1)).take
        (j - (i + 1))).flatMap (fun t => seqScan db (URN.add urn t) none none),
      (((MultiTypeCollection.ListStoredTypes db urn).drop (i + 1)).drop
        (j - (i + 1) + 1)).flatMap (fun t => seqScan db (URN.add urn t) none none),
      ?_⟩
    rw [MultiTypeCollection.iterAll, hd1, hd2]
  · intro t
    simp only [seqScan]
    exact List.sorted_insertionSort entryLe _

/-- A concrete store holding one type-A entry and one type-B entry, both
markers written. -/
def exDb2 : Db :=
  ⟨[(exUrn, valueTypeTag ++ "A".toList, 1, 0),
    (exUrn, valueTypeTag ++ "B".toList, 1, 0)],
   [(URN.add exUrn "A".toList, 100, 5, .grrMessage (some ⟨"A".toList, 0⟩)),
    (URN.add exUrn "B".toList, 50, 7, .grrMessage (some ⟨"B".toList, 1⟩))]⟩

/-- Witness for C6 on a two-type store at positions 0 < 1. -/
theorem C6_witness :
    (∃ pre mid post,
      MultiTypeCollection.iterAll exDb2 exUrn =
        pre ++
        (seqScan exDb2 (URN.add exUrn ((MultiTypeCollection.ListStoredTypes exDb2 exUrn).get
          ⟨0, by decide⟩)) none none ++
        (mid ++
        (seqScan exDb2 (URN.add exUrn ((MultiTypeCollection.ListStoredTypes exDb2 exUrn).get
          ⟨1, by decide⟩)) none none ++
        post)))) ∧
    ∀ t : PyStr, List.Sorted entryLe (seqScan exDb2 (URN.add exUrn t) none none) :=
  C6_iteration_groups_by_type exDb2 exUrn 0 1 (by decide) (by decide)

/-- The set of marker attributes on the collection's row covers every type
that has at least one appended entry in its per-type sequence. -/
def MarkersCoverEntries (db : Db) (urn : URN) : Prop :=
  ∀ t : PyStr, 0 < seqLength db (URN.add urn t) →
    t ∈ MultiTypeCollection.ListStoredTypes db urn

/-- C7: every non-batched `Add` writes the type marker with the fixed
sentinel value 1 at the fixed timestamp 0 — whatever the entry's own
timestamp and suffix are — and the state it produces already contains the
corresponding appended entry, so the marker set stays a superset of the
set of types that have at least one appended entry: the invariant is
preserved by every `Add`. -/
theorem C7_marker_after_entry_superset (db : Db) (urn : URN) (v : RDFValue)
    (ts sfx : Nat) (hinv : MarkersCoverEntries db urn) :
    ∃ res : AddResult,
      MultiTypeCollection.Add db urn (some v) ts sfx none = .ok res ∧
      (urn, valueTypeTag ++ deriveTypeName v, 1, 0) ∈ res.db.attrs ∧
      (URN.add urn (deriveTypeName v), ts, sfx, wrapIfNeeded v) ∈
        res.db.seqEntries ∧
      MarkersCoverEntries res.db urn := by
  refine ⟨⟨applyAdd db urn v ts sfx, none, none⟩, add_ok db urn v ts sfx,
    ?_, ?_, ?_⟩
  · simp [applyAdd, Db.set]
  · simp [applyAdd, Db.set]
  · intro t hlen
    by_cases hteq : t = deriveTypeName v
    · subst hteq
      exact listStoredTypes_set_mem _ urn _
    · have hne : (URN.add urn (deriveTypeName v) ==
          URN.add urn t) = false := by
        refine beq_eq_false_iff_ne.mpr ?_
        intro he
        exact hteq (List.cons_eq_cons.mp (List.append_cancel_left he)).1.symm
      have hlen' : 0 < seqLength db (URN.add urn t) := by
        simpa [applyAdd, Db.set, seqLength, List.filter_cons, hne] using hlen
      exact listStoredTypes_set_preserve _ urn t _ (hinv t hlen')

/-- Witness for C7: one `Add` on an empty store (where the superset
invariant holds vacuously) at t=100, suffix=5 leaves the marker cell
(value 1, timestamp 0) and the appended entry, and the invariant still
holds. -/
theorem C7_witness :
    ∃ res : AddResult,
      MultiTypeCollection.Add exDb exUrn (some exPayloadA) 100 5 none =
        .ok res ∧
      (exUrn, valueTypeTag ++ deriveTypeName exPayloadA, 1, 0) ∈
        res.db.attrs ∧
      (URN.add exUrn (deriveTypeName exPayloadA), 100, 5,
        wrapIfNeeded exPayloadA) ∈ res.db.seqEntries ∧
      MarkersCoverEntries res.db exUrn :=
  C7_marker_after_entry_superset exDb exUrn exPayloadA 100 5
    (fun _ h => absurd h (by simp [seqLength, exDb]))

/-- C8: when a mutation pool is supplied to `StaticAdd`, the store is left
untouched and both the entry append and the marker write are staged into
that same pool; when no pool is supplied, both writes land directly in
the store and no pool is produced. -/
theorem C8_mutation_pool_staging (db p : Db) (urn : URN) (v : RDFValue)
    (ts sfx : Nat) :
    (∃ res : AddResult,
      MultiTypeCollection.StaticAdd urn (some v) ts sfx (some p) db =
        .ok res ∧
      res.db = db ∧
      ∃ p' : Db, res.pool = some p' ∧
        (URN.add urn (deriveTypeName v), ts, sfx, wrapIfNeeded v) ∈
          p'.seqEntries ∧
        (urn, valueTypeTag ++ deriveTypeName v, 1, 0) ∈ p'.attrs) ∧
    (∃ res : AddResult,
      MultiTypeCollection.StaticAdd urn (some v) ts sfx none db = .ok res ∧
      res.pool = none ∧
      (URN.add urn (deriveTypeName v), ts, sfx, wrapIfNeeded v) ∈
        res.db.seqEntries ∧
      (urn, valueTypeTag ++ deriveTypeName v, 1, 0) ∈ res.db.attrs) := by
  constructor
  · refine ⟨_, rfl, rfl, _, rfl, ?_, ?_⟩ <;>
      simp [MultiTypeCollection.StaticAdd, seqStaticAdd, Db.set, deriveTypeName]
  · refine ⟨_, rfl, rfl, ?_, ?_⟩ <;>
      simp [MultiTypeCollection.StaticAdd, seqStaticAdd, Db.set, deriveTypeName]

/-- `OnDelete` with a pool supplied never fails and registers exactly the
previous pool contents followed by every discovered row. -/
theorem onDelete_some (db : Db) (urn : URN) (pool : List URN) :
    MultiTypeCollection.OnDelete db urn (some pool) =
      .ok (some (pool ++ db.scanAttribute urn)) := by
  unfold MultiTypeCollection.OnDelete
  generalize db.scanAttribute urn = rows
  induction rows generalizing pool with
  | nil => simp [MultiTypeCollection.markAll]
  | cons r rest ih =>
    rw [MultiTypeCollection.markAll, ih (pool ++ [r])]
    simp

/-- C9: `OnDelete` registers with the deletion pool every row the store
holds under the collection's namespace that carries the sequence
primitive's marking attribute — every record row of every sub-sequence —
with no condition on the type marker: a sub-sequence whose marker write
never completed is registered all the same, so the registration is not
limited to `ListStoredTypes()`. -/
theorem C9_delete_registers_all (db : Db) (urn : URN) (pool : List URN)
    (seqId : URN) (ts sfx : Nat) (v : RDFValue)
    (hmem : (seqId, ts, sfx, v) ∈ db.seqEntries)
    (hpre : urn.isPrefixOf (recordRow seqId ts sfx) = true) :
    ∃ regs : List URN,
      MultiTypeCollection.OnDelete db urn (some pool) = .ok (some regs) ∧
      recordRow seqId ts sfx ∈ regs := by
  refine ⟨pool ++ db.scanAttribute urn, onDelete_some db urn pool,
    List.mem_append_right _ ?_⟩
  unfold Db.scanAttribute Db.recordRows
  exact List.mem_filter.mpr
    ⟨List.mem_map.mpr ⟨(seqId, ts, sfx, v), hmem, rfl⟩, hpre⟩

/-- A store holding one type-A entry whose marker write never happened:
no marker attributes at all, one sequence entry. -/
def exDbNoMarker : Db :=
  ⟨[], [(URN.add exUrn "A".toList, 100, 5, wrapIfNeeded exPayloadA)]⟩

/-- Witness for C9: the lone entry's record row is registered even though
its type's marker write never completed (the store has no markers, so
`ListStoredTypes` is empty). -/
theorem C9_witness :
    ∃ regs : List URN,
      MultiTypeCollection.OnDelete exDbNoMarker exUrn (some []) =
        .ok (some regs) ∧
      recordRow (URN.add exUrn "A".toList) 100 5 ∈ regs :=
  C9_delete_registers_all exDbNoMarker exUrn []
    (URN.add exUrn "A".toList) 100 5 (wrapIfNeeded exPayloadA)
    (by decide) (by decide)

/-- C10: `deletion_pool` is dereferenced unconditionally for every
discovered row, so for any collection whose store contains at least one
row carrying the sequence primitive's marking attribute under the
collection's namespace, calling `OnDelete` without a deletion pool fails
with the `None`-dereference error instead of silently skipping
registration. -/
theorem C10_onDelete_null_pool_fails (db : Db) (urn : URN)
    (h : db.scanAttribute urn ≠ []) :
    MultiTypeCollection.OnDelete db urn none =
      .error
        "AttributeError: NoneType object has no attribute MarkForDeletion".toList := by
  unfold MultiTypeCollection.OnDelete
  cases hrows : db.scanAttribute urn with
  | nil => exact absurd hrows h
  | cons r rest => rfl

/-- Witness for C10: on the marker-less one-entry store, `OnDelete`
without a pool raises. -/
theorem C10_witness :
    MultiTypeCollection.OnDelete exDbNoMarker exUrn none =
      .error
        "AttributeError: NoneType object has no attribute MarkForDeletion".toList :=
  C10_onDelete_null_pool_fails exDbNoMarker exUrn (by decide)
